import Mathlib

/-!
Verification of the ghostway TCP-over-HTTP tunnel core against its
specification.  The definitions below are shallow embeddings of the
Python sources: the payload envelope (base64 + optional gzip) from
src/client/tcp_client.py and src/server/tcp_server.py, the adaptive
read-buffer step shared by both relays, the egress HTTP method handlers
from src/server/request_handler.py, the ingress callback handler from
src/client/response_handler.py, and the teardown orderings of both
relays.  Bytes are `Nat` values below 256; ASCII request bodies are
lists of character codes.
-/

/-- Base64 alphabet membership test, including the padding character 61
('=').  Models the character filtering done by Python's binascii-based
`base64.b64decode` with validate=False, which discards characters outside
the alphabet before decoding. -/
def isB64Char (c : Nat) : Bool :=
  (65 ≤ c && c ≤ 90) || (97 ≤ c && c ≤ 122) || (48 ≤ c && c ≤ 57)
    || c == 43 || c == 47 || c == 61

/-- ASCII code of the base64 digit for a 6-bit group (RFC 4648 alphabet
A-Z a-z 0-9 + /), as used by `base64.b64encode`. -/
def encC (x : Nat) : Nat :=
  if x < 26 then 65 + x
  else if x < 52 then 97 + (x - 26)
  else if x < 62 then 48 + (x - 52)
  else if x = 62 then 43
  else 47

/-- Inverse of `encC` on base64 digit codes. -/
def decC (c : Nat) : Nat :=
  if 65 ≤ c ∧ c ≤ 90 then c - 65
  else if 97 ≤ c ∧ c ≤ 122 then c - 97 + 26
  else if 48 ≤ c ∧ c ≤ 57 then c - 48 + 52
  else if c = 43 then 62
  else 63

/-- base64 encoding of a byte list (`base64.b64encode`): groups of three
bytes become four alphabet characters; a trailing group of one or two
bytes is padded with '=' (61). -/
def b64encode : List Nat → List Nat
  | [] => []
  | [a] => [encC (a / 4), encC (a % 4 * 16), 61, 61]
  | [a, b] => [encC (a / 4), encC (a % 4 * 16 + b / 16), encC (b % 16 * 4), 61]
  | a :: b :: c :: rest =>
      encC (a / 4) :: encC (a % 4 * 16 + b / 16) :: encC (b % 16 * 4 + c / 64)
        :: encC (c % 64) :: b64encode rest

/-- Decoding of a base64 character stream whose length is a multiple of
four, honouring '=' padding in the final group. -/
def b64decodeGroups : List Nat → List Nat
  | c1 :: c2 :: c3 :: c4 :: rest =>
      if c3 = 61 then [decC c1 * 4 + decC c2 / 16]
      else if c4 = 61 then
        [decC c1 * 4 + decC c2 / 16, decC c2 % 16 * 16 + decC c3 / 4]
      else
        (decC c1 * 4 + decC c2 / 16) :: (decC c2 % 16 * 16 + decC c3 / 4)
          :: (decC c3 % 4 * 64 + decC c4) :: b64decodeGroups rest
  | _ => []

/-- `base64.b64decode` with validate=False: discard characters outside
the alphabet, then fail (binascii.Error, i.e. `none`) unless the
remaining length is a multiple of four. -/
def b64decodeOpt (s : List Nat) : Option (List Nat) :=
  let t := s.filter isB64Char
  if t.length % 4 = 0 then some (b64decodeGroups t) else none

/-- Recursion principle following the three-byte grouping of `b64encode`. -/
theorem byte_list_rec {P : List Nat → Prop} (h0 : P []) (h1 : ∀ a, P [a])
    (h2 : ∀ a b, P [a, b])
    (h3 : ∀ a b c rest, P rest → P (a :: b :: c :: rest)) :
    ∀ l : List Nat, P l
  | [] => h0
  | [a] => h1 a
  | [a, b] => h2 a b
  | a :: b :: c :: rest => h3 a b c rest (byte_list_rec h0 h1 h2 h3 rest)

theorem decC_encC : ∀ x < 64, decC (encC x) = x := by decide

theorem encC_ne_pad : ∀ x < 64, encC x ≠ 61 := by decide

theorem isB64Char_encC (x : Nat) : isB64Char (encC x) = true := by
  unfold encC isB64Char
  split_ifs <;> simp <;> omega

theorem b64encode_mem_isB64Char :
    ∀ l : List Nat, ∀ c ∈ b64encode l, isB64Char c = true := by
  refine byte_list_rec ?_ ?_ ?_ ?_
  · intro c hc
    simp [b64encode] at hc
  · intro a c hc
    simp only [b64encode, List.mem_cons, List.mem_singleton, List.not_mem_nil,
      or_false] at hc
    rcases hc with h | h | h | h <;> subst h <;>
      first
        | exact isB64Char_encC _
        | decide
  · intro a b c hc
    simp only [b64encode, List.mem_cons, List.not_mem_nil, or_false] at hc
    rcases hc with h | h | h | h <;> subst h <;>
      first
        | exact isB64Char_encC _
        | decide
  · intro a b c rest ih x hx
    simp only [b64encode, List.mem_cons] at hx
    rcases hx with h | h | h | h | h
    · subst h; exact isB64Char_encC _
    · subst h; exact isB64Char_encC _
    · subst h; exact isB64Char_encC _
    · subst h; exact isB64Char_encC _
    · exact ih x h

theorem b64encode_length_mod :
    ∀ l : List Nat, (b64encode l).length % 4 = 0 := by
  refine byte_list_rec ?_ ?_ ?_ ?_
  · simp [b64encode]
  · intro a; simp [b64encode]
  · intro a b; simp [b64encode]
  · intro a b c rest ih
    simp only [b64encode, List.length_cons]
    omega

theorem b64decodeGroups_encode :
    ∀ l : List Nat, (∀ x ∈ l, x < 256) → b64decodeGroups (b64encode l) = l := by
  refine byte_list_rec ?_ ?_ ?_ ?_
  · intro _
    simp [b64encode, b64decodeGroups]
  · intro a h
    have ha : a < 256 := h a (by simp)
    simp only [b64encode, b64decodeGroups]
    rw [decC_encC (a / 4) (by omega), decC_encC (a % 4 * 16) (by omega)]
    simp
    omega
  · intro a b h
    have ha : a < 256 := h a (by simp)
    have hb : b < 256 := h b (by simp)
    simp only [b64encode, b64decodeGroups]
    rw [if_neg (encC_ne_pad (b % 16 * 4) (by omega))]
    rw [decC_encC (a / 4) (by omega),
      decC_encC (a % 4 * 16 + b / 16) (by omega),
      decC_encC (b % 16 * 4) (by omega)]
    simp
    omega
  · intro a b c rest ih h
    have ha : a < 256 := h a (by simp)
    have hb : b < 256 := h b (by simp)
    have hc : c < 256 := h c (by simp)
    simp only [b64encode, b64decodeGroups]
    rw [if_neg (encC_ne_pad (b % 16 * 4 + c / 64) (by omega)),
      if_neg (encC_ne_pad (c % 64) (by omega))]
    rw [decC_encC (a / 4) (by omega),
      decC_encC (a % 4 * 16 + b / 16) (by omega),
      decC_encC (b % 16 * 4 + c / 64) (by omega),
      decC_encC (c % 64) (by omega)]
    rw [ih (fun x hx => h x (by simp [hx]))]
    simp
    omega

theorem b64decodeOpt_encode (l : List Nat) (h : ∀ x ∈ l, x < 256) :
    b64decodeOpt (b64encode l) = some l := by
  unfold b64decodeOpt
  rw [List.filter_eq_self.mpr (b64encode_mem_isB64Char l)]
  rw [if_pos (b64encode_length_mod l)]
  rw [b64decodeGroups_encode l h]

/-- Payload envelope construction shared by `TcpClient.forward_to_http`
(src/client/tcp_client.py:96-102) and `TcpServer.handle_tcp_responses`
(src/server/tcp_server.py:84-94): when gzip is enabled and the chunk is
strictly longer than the threshold, gzip-compress and mark the
X-Content-Encoding: gzip header; then base64-encode.  gzip itself is the
Python standard library compressor, taken as the parameter `gz`.
Returns the request body and whether the gzip header is set. -/
def encode_payload (gzipEnabled : Bool) (threshold : Nat)
    (gz : List Nat → List Nat) (data : List Nat) : List Nat × Bool :=
  if gzipEnabled && decide (threshold < data.length) then
    (b64encode (gz data), true)
  else (b64encode data, false)

/-- Payload envelope decoding performed by the receivers
(src/client/response_handler.py:20-32, src/server/request_handler.py:67-74):
base64-decode the body, then gzip-decompress exactly when the request
declared X-Content-Encoding: gzip.  `gunzip` is the library decompressor;
`none` stands for a raised exception. -/
def decode_payload (gunzip : List Nat → Option (List Nat)) (body : List Nat)
    (gzipHeader : Bool) : Option (List Nat) :=
  match b64decodeOpt body with
  | none => none
  | some d => if gzipHeader then gunzip d else some d

/-- Claim C1: decoding the payload envelope after encoding it returns the
original byte sequence, for every gzip-enabled flag and threshold,
provided the compressor and decompressor are mutually inverse on byte
lists and compression produces bytes. -/
theorem envelope_roundtrip (gzipEnabled : Bool) (threshold : Nat)
    (gz : List Nat → List Nat) (gunzip : List Nat → Option (List Nat))
    (B : List Nat) (hB : ∀ x ∈ B, x < 256)
    (hgzBytes : ∀ l, (∀ x ∈ l, x < 256) → ∀ x ∈ gz l, x < 256)
    (hinv : ∀ l, (∀ x ∈ l, x < 256) → gunzip (gz l) = some l) :
    decode_payload gunzip (encode_payload gzipEnabled threshold gz B).1
      (encode_payload gzipEnabled threshold gz B).2 = some B := by
  unfold encode_payload decode_payload
  cases hcond : (gzipEnabled && decide (threshold < B.length)) with
  | false => simp [b64decodeOpt_encode B hB]
  | true => simp [b64decodeOpt_encode (gz B) (hgzBytes B hB), hinv B hB]

/-- Witness for `envelope_roundtrip`: identity codec, gzip enabled,
threshold 0 (so compression fires), payload [200, 3]. -/
theorem envelope_roundtrip_witness :
    decode_payload (fun l => some l)
      (encode_payload true 0 (fun l => l) [200, 3]).1
      (encode_payload true 0 (fun l => l) [200, 3]).2 = some [200, 3] :=
  envelope_roundtrip true 0 (fun l => l) (fun l => some l) [200, 3]
    (by decide) (fun _ hl => hl) (fun _ _ => rfl)

/-- Adaptive read buffer parameter INITIAL_BUFFER_SIZE
(src/client/tcp_client.py:8, src/server/tcp_server.py:8). -/
def INITIAL_BUFFER_SIZE : Nat := 1024

/-- Adaptive read buffer parameter MAX_BUFFER_SIZE
(src/client/tcp_client.py:9, src/server/tcp_server.py:9). -/
def MAX_BUFFER_SIZE : Nat := 65536

/-- Adaptive read buffer parameter BUFFER_GROWTH_FACTOR
(src/client/tcp_client.py:10, src/server/tcp_server.py:10). -/
def BUFFER_GROWTH_FACTOR : Nat := 2

/-- Adaptive buffer step applied after a read of `received` bytes with
chunk size `current`, as in src/client/tcp_client.py:55-60 and
src/server/tcp_server.py:79-82: grow when the read filled the buffer and
the buffer is below MAX; shrink when the read used less than a quarter of
the buffer and the buffer is above INITIAL; otherwise keep it. -/
def nextBufferSize (current received : Nat) : Nat :=
  if received = current ∧ current < MAX_BUFFER_SIZE then
    min (current * BUFFER_GROWTH_FACTOR) MAX_BUFFER_SIZE
  else if received < current / (BUFFER_GROWTH_FACTOR * 2) ∧
      INITIAL_BUFFER_SIZE < current then
    max (current / BUFFER_GROWTH_FACTOR) INITIAL_BUFFER_SIZE
  else current

/-- Chunk size after a sequence of reads of the given lengths, starting
from INITIAL_BUFFER_SIZE as both read loops do. -/
def runBuffer (reads : List Nat) : Nat :=
  reads.foldl nextBufferSize INITIAL_BUFFER_SIZE

/-- Claim C3: the adaptive buffer step equals min(s*2, 65536) when the
read filled the buffer below MAX, equals max(s/2, 1024) when the read
returned less than s/4 on a buffer above INITIAL, and leaves the size
unchanged otherwise. -/
theorem buffer_step_rule (s n : Nat) (hlo : 1024 ≤ s) (hhi : s ≤ 65536)
    (_hn : n ≤ s) :
    (n = s ∧ s < 65536 → nextBufferSize s n = min (s * 2) 65536) ∧
    (n < s / 4 ∧ 1024 < s → nextBufferSize s n = max (s / 2) 1024) ∧
    (¬(n = s ∧ s < 65536) → ¬(n < s / 4 ∧ 1024 < s) → nextBufferSize s n = s) := by
  unfold nextBufferSize INITIAL_BUFFER_SIZE MAX_BUFFER_SIZE BUFFER_GROWTH_FACTOR
  refine ⟨?_, ?_, ?_⟩
  · intro hgrow
    rw [if_pos hgrow]
  · intro hshrink
    rw [if_neg (by omega), if_pos (by omega)]
  · intro hng hns
    rw [if_neg (by omega), if_neg (by omega)]

/-- Witness for `buffer_step_rule` at s = 2048, n = 100 (shrink case). -/
theorem buffer_step_rule_witness :
    nextBufferSize 2048 100 = max (2048 / 2) 1024 :=
  (buffer_step_rule 2048 100 (by omega) (by omega) (by omega)).2.1 (by omega)

theorem nextBufferSize_bounds (s n : Nat) (hlo : 1024 ≤ s) (hhi : s ≤ 65536) :
    1024 ≤ nextBufferSize s n ∧ nextBufferSize s n ≤ 65536 := by
  unfold nextBufferSize INITIAL_BUFFER_SIZE MAX_BUFFER_SIZE BUFFER_GROWTH_FACTOR
  split_ifs <;> omega

theorem runBuffer_foldl_bounds (reads : List Nat) :
    ∀ s, 1024 ≤ s → s ≤ 65536 →
      1024 ≤ reads.foldl nextBufferSize s ∧ reads.foldl nextBufferSize s ≤ 65536 := by
  induction reads with
  | nil => intro s h1 h2; simpa using ⟨h1, h2⟩
  | cons n rest ih =>
      intro s h1 h2
      have hb := nextBufferSize_bounds s n h1 h2
      simpa using ih (nextBufferSize s n) hb.1 hb.2

/-- Claim C4: starting from INITIAL = 1024, after any sequence of reads
the chunk size stays within [1024, 65536]; and a single read strictly
smaller than the current chunk size never increases the chunk size. -/
theorem adaptive_buffer_bounds :
    (∀ reads : List Nat, 1024 ≤ runBuffer reads ∧ runBuffer reads ≤ 65536) ∧
    (∀ s n : Nat, n < s → nextBufferSize s n ≤ s) := by
  constructor
  · intro reads
    exact runBuffer_foldl_bounds reads 1024 (by omega) (by omega)
  · intro s n hn
    unfold nextBufferSize INITIAL_BUFFER_SIZE MAX_BUFFER_SIZE BUFFER_GROWTH_FACTOR
    split_ifs <;> omega

/-- Witness for `adaptive_buffer_bounds`: bounds after the reads
[1024, 1024, 50] and no growth for a 100-byte read at size 2048. -/
theorem adaptive_buffer_bounds_witness :
    (1024 ≤ runBuffer [1024, 1024, 50] ∧ runBuffer [1024, 1024, 50] ≤ 65536) ∧
    nextBufferSize 2048 100 ≤ 2048 :=
  ⟨adaptive_buffer_bounds.1 [1024, 1024, 50],
    adaptive_buffer_bounds.2 2048 100 (by omega)⟩

/-- Python dict assignment `m[k] = v` on an association list: overwrite
the entry if the key is present, append otherwise. -/
def aupdate {α : Type} (m : List (String × α)) (k : String) (v : α) :
    List (String × α) :=
  if (m.find? (fun p => decide (p.1 = k))).isSome then
    m.map (fun p => if p.1 = k then (k, v) else p)
  else m ++ [(k, v)]

/-- Python dict lookup `m.get(k)` on an association list. -/
def alookup {α : Type} (m : List (String × α)) (k : String) : Option α :=
  (m.find? (fun p => decide (p.1 = k))).map (fun p => p.2)

/-- Python membership test `k in m` on an association list. -/
def amem {α : Type} (m : List (String × α)) (k : String) : Bool :=
  (alookup m k).isSome

/-- Callback endpoint registered by the egress relay: the HTTP peer's
address together with the Response-Port header value
(src/server/request_handler.py:33-36). -/
structure Endpoint where
  ip : String
  port : String
deriving DecidableEq

/-- Egress relay session state: `tcp_connections` maps a session id to
the identifier of its target TCP socket, `response_endpoints` maps it to
the registered callback endpoint (src/server/tcp_server.py:14-15,
src/server/http_to_tcp.py:16-17). -/
structure EgressState where
  tcp_connections : List (String × Nat)
  response_endpoints : List (String × Endpoint)
deriving DecidableEq

/-- Outcome of the library call `gzip.decompress`: success with the
decompressed bytes, a `gzip.BadGzipFile` error, or any other exception. -/
inductive GzipResult
  | ok (data : List Nat)
  | badGzip
  | err
deriving DecidableEq

/-- Egress data POST handler, `HttpRequestHandler.do_POST`
(src/server/request_handler.py:53-109).  The session id defaults to the
HTTP peer's port when the Session-ID header is absent; a Response-Port
header re-registers the callback endpoint before anything is decoded;
then the body is base64-decoded (failure → 400), gzip-decompressed when
X-Content-Encoding: gzip is declared (any exception → 400), the session
is looked up (absent → 400) and the bytes are written to its target
socket (`sendOk` is the outcome of `sendall`: success → 200, failure →
500).  Returns (status, new state, bytes written to the target). -/
def do_POST (st : EgressState) (sidHdr rpHdr ceHdr : Option String)
    (peerIp : String) (peerPort : Nat) (body : List Nat)
    (gunzip : List Nat → GzipResult) (sendOk : Bool) :
    Nat × EgressState × Option (List Nat) :=
  let sid := sidHdr.getD (toString peerPort)
  let st1 : EgressState :=
    match rpHdr with
    | some rp =>
        { st with response_endpoints :=
            aupdate st.response_endpoints sid ⟨peerIp, rp⟩ }
    | none => st
  match b64decodeOpt body with
  | none => (400, st1, none)
  | some d =>
    let dec : Option (List Nat) :=
      if ceHdr = some "gzip" then
        match gunzip d with
        | GzipResult.ok d2 => some d2
        | GzipResult.badGzip => none
        | GzipResult.err => none
      else some d
    match dec with
    | none => (400, st1, none)
    | some d2 =>
      if amem st1.tcp_connections sid then
        if sendOk then (200, st1, some d2) else (500, st1, none)
      else (400, st1, none)

/-- Egress session-initialization PUT handler, `HttpRequestHandler.do_PUT`
(src/server/request_handler.py:13-51) composed with
`TcpServer.ensure_tcp_connection` (src/server/tcp_server.py:19-51):
missing Session-ID or Response-Port → 400; otherwise the callback
endpoint is (re-)registered from the peer address and header, and a
target connection is ensured: if one already exists for the id nothing
else happens (200); otherwise the target is dialled (`dialOk`), storing
a fresh connection `newConn` on success (200) and answering 500 on dial
failure.  The endpoint-presence test inside ensure_tcp_connection is
omitted because registration has just put the endpoint in place. -/
def do_PUT (st : EgressState) (sidHdr rpHdr : Option String) (peerIp : String)
    (dialOk : Bool) (newConn : Nat) : Nat × EgressState :=
  match sidHdr with
  | none => (400, st)
  | some sid =>
    match rpHdr with
    | none => (400, st)
    | some rp =>
      let st1 : EgressState :=
        { st with response_endpoints :=
            aupdate st.response_endpoints sid ⟨peerIp, rp⟩ }
      if amem st1.tcp_connections sid then (200, st1)
      else if dialOk then
        (200, { st1 with tcp_connections := st1.tcp_connections ++ [(sid, newConn)] })
      else (500, st1)

/-- Claim C6 (counterexample): a POST with an unregistered session id
that carries a Response-Port header mutates `response_endpoints` before
the 400 response, so the session state is not left unchanged. -/
theorem post_unknown_session_counterexample :
    (do_POST ⟨[], []⟩ (some "s") (some "9001") none "1.2.3.4" 5555
        (b64encode [104]) (fun _ => GzipResult.err) true).2.1 ≠
      EgressState.mk [] [] := by
  decide

/-- Claim C6 (amended): a POST whose session id is not in
`tcp_connections` is answered 400, writes nothing to any socket, and
leaves `tcp_connections` unchanged; `response_endpoints` is unchanged
when the request has no Response-Port header, and is re-registered for
the unknown id from the peer address when it has one. -/
theorem post_unknown_session_amended (st : EgressState)
    (sidHdr rpHdr ceHdr : Option String) (peerIp : String) (peerPort : Nat)
    (body : List Nat) (gunzip : List Nat → GzipResult) (sendOk : Bool)
    (hunknown : amem st.tcp_connections (sidHdr.getD (toString peerPort)) = false) :
    (do_POST st sidHdr rpHdr ceHdr peerIp peerPort body gunzip sendOk).1 = 400 ∧
    (do_POST st sidHdr rpHdr ceHdr peerIp peerPort body gunzip sendOk).2.2 = none ∧
    (do_POST st sidHdr rpHdr ceHdr peerIp peerPort body gunzip sendOk).2.1.tcp_connections
      = st.tcp_connections ∧
    (rpHdr = none →
      (do_POST st sidHdr rpHdr ceHdr peerIp peerPort body gunzip sendOk).2.1.response_endpoints
        = st.response_endpoints) ∧
    (∀ rp, rpHdr = some rp →
      (do_POST st sidHdr rpHdr ceHdr peerIp peerPort body gunzip sendOk).2.1.response_endpoints
        = aupdate st.response_endpoints (sidHdr.getD (toString peerPort)) ⟨peerIp, rp⟩) := by
  unfold do_POST
  cases rpHdr <;>
    cases hdec : b64decodeOpt body <;>
      simp only [hdec] <;>
        (repeat' split) <;>
          simp_all [amem]

/-- Witness for `post_unknown_session_amended`: unknown id "s" with a
Response-Port header on the empty state. -/
theorem post_unknown_session_amended_witness :
    (do_POST ⟨[], []⟩ (some "s") (some "9001") none "1.2.3.4" 5555
        (b64encode [104]) (fun _ => GzipResult.err) true).1 = 400 ∧
    (do_POST ⟨[], []⟩ (some "s") (some "9001") none "1.2.3.4" 5555
        (b64encode [104]) (fun _ => GzipResult.err) true).2.1.response_endpoints
      = aupdate ([] : List (String × Endpoint)) "s" ⟨"1.2.3.4", "9001"⟩ := by
  have h := post_unknown_session_amended ⟨[], []⟩ (some "s") (some "9001") none
    "1.2.3.4" 5555 (b64encode [104]) (fun _ => GzipResult.err) true (by decide)
  exact ⟨h.1, h.2.2.2.2 "9001" rfl⟩

/-- Claim C9 (counterexample): a second PUT for the already-registered
session id "7" that carries a different Response-Port overwrites the
recorded callback endpoint, so it is not a state no-op. -/
theorem put_repeat_counterexample :
    (do_PUT ⟨[("7", 1)], [("7", ⟨"10.0.0.1", "9001"⟩)]⟩ (some "7")
        (some "9002") "10.0.0.1" true 2).2 ≠
      EgressState.mk [("7", 1)] [("7", ⟨"10.0.0.1", "9001"⟩)] := by
  decide

/-- Claim C9 (amended): a PUT for a session id already in
`tcp_connections` returns 200 and leaves the registered target
connection untouched, but it re-registers the callback endpoint from
the new request's peer address and Response-Port header (a no-op only
when those coincide with the recorded endpoint). -/
theorem put_repeat_amended (st : EgressState) (sid rp peerIp : String)
    (dialOk : Bool) (newConn : Nat)
    (hex : amem st.tcp_connections sid = true) :
    do_PUT st (some sid) (some rp) peerIp dialOk newConn =
      (200, { st with
              response_endpoints := aupdate st.response_endpoints sid ⟨peerIp, rp⟩ }) := by
  unfold do_PUT
  simp [hex]

/-- Witness for `put_repeat_amended` on a concrete registered session. -/
theorem put_repeat_amended_witness :
    do_PUT ⟨[("7", 1)], [("7", ⟨"10.0.0.1", "9001"⟩)]⟩ (some "7")
        (some "9002") "10.0.0.1" true 2 =
      (200, { tcp_connections := [("7", 1)],
              response_endpoints :=
                aupdate [("7", ⟨"10.0.0.1", "9001"⟩)] "7" ⟨"10.0.0.1", "9002"⟩ }) :=
  put_repeat_amended ⟨[("7", 1)], [("7", ⟨"10.0.0.1", "9001"⟩)]⟩ "7" "9002"
    "10.0.0.1" true 2 (by decide)

/-- Claim C10: a data POST without a Session-ID header is processed
exactly as if the header carried the HTTP peer's port rendered as a
string, and in particular is not rejected for the missing header: with
a connection registered under that fabricated id it succeeds with 200. -/
theorem post_missing_session_header :
    (∀ (st : EgressState) (rpHdr ceHdr : Option String) (peerIp : String)
        (peerPort : Nat) (body : List Nat) (gunzip : List Nat → GzipResult)
        (sendOk : Bool),
      do_POST st none rpHdr ceHdr peerIp peerPort body gunzip sendOk =
        do_POST st (some (toString peerPort)) rpHdr ceHdr peerIp peerPort body
          gunzip sendOk) ∧
    (do_POST ⟨[("5555", 1)], []⟩ none none none "9.9.9.9" 5555
        (b64encode [104]) (fun _ => GzipResult.err) true).1 = 200 := by
  constructor
  · intro st rpHdr ceHdr peerIp peerPort body gunzip sendOk
    rfl
  · decide

/-- State of the ingress writer for a session as seen by the callback
server: absent from `active_client_writers`, present but is_closing, or
present and writable with the given outcome of write/drain. -/
inductive WriterState
  | absent
  | closing
  | okWrite
  | resetWrite
  | errWrite
deriving DecidableEq

/-- Forwarding of decoded bytes to the session writer and the choice of
response, src/client/response_handler.py:36-59: write success → 200
with the bytes written, ConnectionResetError or any other socket error
→ 500, writer closing → 410, session unknown → 404. -/
def forward_to_writer (d : List Nat) (w : WriterState) : Nat × Option (List Nat) :=
  match w with
  | WriterState.okWrite => (200, some d)
  | WriterState.resetWrite => (500, none)
  | WriterState.errWrite => (500, none)
  | WriterState.closing => (410, none)
  | WriterState.absent => (404, none)

/-- Ingress callback POST handler `handle_http_response`
(src/client/response_handler.py:10-63): missing Session-ID → 400; the
body is base64-decoded — a decode failure (binascii.Error) is not
handled locally and lands in the outermost exception handler, which
answers 500; under X-Content-Encoding: gzip the bytes are
gzip-decompressed, answering 400 on gzip.BadGzipFile and 500 on any
other decompression error; finally the bytes go to the session's writer
via `forward_to_writer`.  Returns the status and the bytes written. -/
def handle_http_response (sidHdr ceHdr : Option String) (body : List Nat)
    (gunzip : List Nat → GzipResult) (w : WriterState) :
    Nat × Option (List Nat) :=
  match sidHdr with
  | none => (400, none)
  | some _ =>
    match b64decodeOpt body with
    | none => (500, none)
    | some d =>
      if ceHdr = some "gzip" then
        match gunzip d with
        | GzipResult.ok d2 => forward_to_writer d2 w
        | GzipResult.badGzip => (400, none)
        | GzipResult.err => (500, none)
      else forward_to_writer d w

/-- Claim C7 (counterexample): a malformed base64 body (a single 'A')
on the ingress callback server is answered 500, not the claimed 400. -/
theorem callback_bad_base64_counterexample :
    (handle_http_response (some "s") none [65] (fun _ => GzipResult.ok [])
        WriterState.okWrite).1 = 500 ∧
    (handle_http_response (some "s") none [65] (fun _ => GzipResult.ok [])
        WriterState.okWrite).1 ≠ 400 := by
  decide

/-- Claim C7 (amended): the ingress callback server answers 400 on a
missing Session-ID header or malformed gzip data (BadGzipFile), 500 on
malformed base64 (the decode error escapes to the outer handler) or any
other decompression error, and otherwise forwards the decoded bytes to
the writer: 200 on a successful write, 410 when the writer is closing,
404 when the session is unknown, 500 on a write error. -/
theorem callback_status_codes (sid : String) (ceHdr : Option String)
    (body d d2 : List Nat) (gunzip : List Nat → GzipResult) (w : WriterState) :
    (handle_http_response none ceHdr body gunzip w = (400, none)) ∧
    (b64decodeOpt body = none →
      handle_http_response (some sid) ceHdr body gunzip w = (500, none)) ∧
    (b64decodeOpt body = some d → gunzip d = GzipResult.badGzip →
      handle_http_response (some sid) (some "gzip") body gunzip w = (400, none)) ∧
    (b64decodeOpt body = some d → gunzip d = GzipResult.err →
      handle_http_response (some sid) (some "gzip") body gunzip w = (500, none)) ∧
    (b64decodeOpt body = some d → gunzip d = GzipResult.ok d2 →
      handle_http_response (some sid) (some "gzip") body gunzip w
        = forward_to_writer d2 w) ∧
    (b64decodeOpt body = some d → ceHdr ≠ some "gzip" →
      handle_http_response (some sid) ceHdr body gunzip w
        = forward_to_writer d w) ∧
    (forward_to_writer d WriterState.okWrite = (200, some d)) ∧
    (forward_to_writer d WriterState.closing = (410, none)) ∧
    (forward_to_writer d WriterState.absent = (404, none)) ∧
    (forward_to_writer d WriterState.resetWrite = (500, none)) ∧
    (forward_to_writer d WriterState.errWrite = (500, none)) := by
  refine ⟨rfl, ?_, ?_, ?_, ?_, ?_, rfl, rfl, rfl, rfl, rfl⟩
  · intro h1
    simp [handle_http_response, h1]
  · intro h1 h2
    simp [handle_http_response, h1, h2]
  · intro h1 h2
    simp [handle_http_response, h1, h2]
  · intro h1 h2
    simp [handle_http_response, h1, h2]
  · intro h1 h2
    simp [handle_http_response, h1, h2]

/-- Witness for `callback_status_codes`: a well-formed uncompressed body
delivered to a writable session answers 200 with the decoded bytes. -/
theorem callback_status_codes_witness :
    handle_http_response (some "s") none (b64encode [104])
        (fun _ => GzipResult.err) WriterState.okWrite = (200, some [104]) := by
  have h := callback_status_codes "s" none (b64encode [104]) [104] []
    (fun _ => GzipResult.err) WriterState.okWrite
  rw [h.2.2.2.2.2.1 (by decide) (by decide)]
  rfl

/-- Value stored in the egress response-endpoint registry as consulted
by the async pump: either a full callback URL string, or the dict of
peer ip and Response-Port registered by
src/server/request_handler.py:33-36. -/
inductive EndpointVal
  | url (u : String)
  | addr (ip : String) (port : String)
deriving DecidableEq

/-- HTTP POST issued by the egress response pump
(src/server/tcp_server.py:84-98): target URL, Session-ID header, whether
the X-Content-Encoding: gzip header is set, and the base64 body. -/
structure PumpPost where
  url : String
  sessionId : String
  gzipHeader : Bool
  body : List Nat
deriving DecidableEq

/-- Callback POST built by the pump for one chunk: the payload envelope
of the chunk addressed to the callback URL with the Session-ID header
(src/server/tcp_server.py:84-96). -/
def mkPumpPost (gzipEnabled : Bool) (threshold : Nat)
    (gz : List Nat → List Nat) (u sid : String) (chunk : List Nat) : PumpPost :=
  ⟨u, sid, (encode_payload gzipEnabled threshold gz chunk).2,
    (encode_payload gzipEnabled threshold gz chunk).1⟩

/-- Read/POST loop of `TcpServer.handle_tcp_responses`
(src/server/tcp_server.py:69-111): `chunks` are the successive values
returned by reader.read, an empty read ends the loop; `postOk i` is
whether the i-th callback POST succeeds — raise_for_status on a non-2xx
response or any aiohttp client error breaks the loop after that POST
was issued.  The adaptive chunk size is threaded as in the source
although it does not affect the POST contents.  Returns the POSTs
issued in order. -/
def pumpLoop (gzipEnabled : Bool) (threshold : Nat) (gz : List Nat → List Nat)
    (u sid : String) : List (List Nat) → (Nat → Bool) → Nat → List PumpPost
  | [], _, _ => []
  | c :: rest, postOk, s =>
    if c = [] then []
    else
      let p := mkPumpPost gzipEnabled threshold gz u sid c
      if postOk 0 then
        p :: pumpLoop gzipEnabled threshold gz u sid rest
          (fun k => postOk (k + 1)) (nextBufferSize s c.length)
      else [p]

/-- Entry of `TcpServer.handle_tcp_responses`
(src/server/tcp_server.py:53-66): the session's recorded callback
endpoint is looked up; if it is missing, or is not a string URL, the
handler logs and returns without posting anything; otherwise the pump
loop runs starting from INITIAL_BUFFER_SIZE. -/
def handle_tcp_responses (gzipEnabled : Bool) (threshold : Nat)
    (gz : List Nat → List Nat) (eps : List (String × EndpointVal))
    (sid : String) (chunks : List (List Nat)) (postOk : Nat → Bool) :
    List PumpPost :=
  match alookup eps sid with
  | none => []
  | some (EndpointVal.addr _ _) => []
  | some (EndpointVal.url u) =>
      pumpLoop gzipEnabled threshold gz u sid chunks postOk INITIAL_BUFFER_SIZE

/-- Modelled from the spec: the aiohttp request-handler module that
provides `setup_routes` (imported by src/server/main.py) is not present
under src/; per §4.4 and §6 its PUT records the session's callback URL
in the response-endpoint registry before the target is dialled and the
response pump is started. -/
def spec_put_register_callback (eps : List (String × EndpointVal))
    (sid callbackUrl : String) : List (String × EndpointVal) :=
  aupdate eps sid (EndpointVal.url callbackUrl)

theorem alookup_map_overwrite {α : Type} (m : List (String × α)) (k : String)
    (v : α) (h : (m.find? (fun p => decide (p.1 = k))).isSome = true) :
    alookup (m.map (fun p => if p.1 = k then (k, v) else p)) k = some v := by
  induction m with
  | nil => simp at h
  | cons p rest ih =>
    by_cases hp : p.1 = k
    · simp [alookup, List.find?, hp]
    · have h' : (rest.find? (fun p => decide (p.1 = k))).isSome = true := by
        simpa [List.find?, hp] using h
      simpa [alookup, List.find?, hp] using ih h'

theorem alookup_append_new {α : Type} (m : List (String × α)) (k : String)
    (v : α) (h : (m.find? (fun p => decide (p.1 = k))).isSome = false) :
    alookup (m ++ [(k, v)]) k = some v := by
  induction m with
  | nil => simp [alookup, List.find?]
  | cons p rest ih =>
    by_cases hp : p.1 = k
    · simp [List.find?, hp] at h
    · have h' : (rest.find? (fun p => decide (p.1 = k))).isSome = false := by
        simpa [List.find?, hp] using h
      simpa [alookup, List.find?, hp] using ih h'

theorem alookup_aupdate {α : Type} (m : List (String × α)) (k : String)
    (v : α) : alookup (aupdate m k v) k = some v := by
  unfold aupdate
  cases h : (m.find? (fun p => decide (p.1 = k))).isSome with
  | true =>
    rw [if_pos rfl]
    exact alookup_map_overwrite m k v h
  | false =>
    rw [if_neg (by decide)]
    exact alookup_append_new m k v h

theorem pumpLoop_get (gzipEnabled : Bool) (threshold : Nat)
    (gz : List Nat → List Nat) (u sid : String) :
    ∀ (chunks : List (List Nat)) (postOk : Nat → Bool) (s j : Nat)
      (c : List Nat), chunks.get? j = some c →
      (∀ k, k ≤ j → chunks.get? k ≠ some []) →
      (∀ k, k < j → postOk k = true) →
      (pumpLoop gzipEnabled threshold gz u sid chunks postOk s).get? j
        = some (mkPumpPost gzipEnabled threshold gz u sid c) := by
  intro chunks
  induction chunks with
  | nil =>
    intro postOk s j c hj
    simp at hj
  | cons c0 rest ih =>
    intro postOk s j c hj hne hok
    have hc0 : ¬ c0 = [] := by
      have h0 := hne 0 (Nat.zero_le j)
      simp only [List.get?] at h0
      intro hx
      exact h0 (by rw [hx])
    cases j with
    | zero =>
      have hc : c = c0 := by
        simp only [List.get?] at hj
        exact (Option.some.injEq _ _ ▸ hj).symm
      subst hc
      unfold pumpLoop
      rw [if_neg hc0]
      cases hpo : postOk 0 <;> simp [List.get?]
    | succ j' =>
      have hok0 : postOk 0 = true := hok 0 (Nat.succ_pos j')
      unfold pumpLoop
      rw [if_neg hc0]
      simp only [hok0, if_true, List.get?]
      exact ih (fun k => postOk (k + 1)) (nextBufferSize s c0.length) j' c
        (by simpa using hj)
        (fun k hk => by simpa using hne (k + 1) (by omega))
        (fun k hk => hok (k + 1) (by omega))

/-- Claim C2: for a session whose PUT recorded its callback URL, every
non-empty chunk the pump reads — all earlier chunks being non-empty and
all earlier POSTs successful — is issued as an HTTP POST carrying the
payload envelope of that chunk to the recorded callback URL with the
session's id. -/
theorem pump_posts_every_chunk (gzipEnabled : Bool) (threshold : Nat)
    (gz : List Nat → List Nat) (eps : List (String × EndpointVal))
    (sid callbackUrl : String) (chunks : List (List Nat))
    (postOk : Nat → Bool) (j : Nat) (c : List Nat)
    (hj : chunks.get? j = some c)
    (hne : ∀ k, k ≤ j → chunks.get? k ≠ some [])
    (hok : ∀ k, k < j → postOk k = true) :
    (handle_tcp_responses gzipEnabled threshold gz
        (spec_put_register_callback eps sid callbackUrl) sid chunks
        postOk).get? j
      = some (mkPumpPost gzipEnabled threshold gz callbackUrl sid c) := by
  unfold handle_tcp_responses spec_put_register_callback
  rw [alookup_aupdate]
  exact pumpLoop_get gzipEnabled threshold gz callbackUrl sid chunks postOk
    INITIAL_BUFFER_SIZE j c hj hne hok

/-- Witness for `pump_posts_every_chunk`: second of two one-byte chunks
with all POSTs succeeding. -/
theorem pump_posts_every_chunk_witness :
    (handle_tcp_responses false 1024 (fun l => l)
        (spec_put_register_callback [] "s" "http://cb/") "s" [[1], [2]]
        (fun _ => true)).get? 1
      = some (mkPumpPost false 1024 (fun l => l) "http://cb/" "s" [2]) :=
  pump_posts_every_chunk false 1024 (fun l => l) [] "s" "http://cb/"
    [[1], [2]] (fun _ => true) 1 [2] (by decide)
    (by decide) (fun k hk => rfl)

/-- Outcome of the session-initializing PUT as observed inside
`TcpClient.initialize_session`: a 2xx response, a non-2xx response
raised by raise_for_status, a timeout, or a connection error. -/
inductive PutOutcome
  | success
  | httpError
  | timeout
  | connError
deriving DecidableEq

/-- `TcpClient.initialize_session` (src/client/tcp_client.py:21-35):
issues the session PUT; aiohttp client errors — which cover non-2xx
responses via raise_for_status, timeouts and connection failures — and
any other exception are caught and logged, so the coroutine completes
normally and reports nothing about the outcome. -/
def init_session (_outcome : PutOutcome) : Unit := ()

/-- HTTP POST issued by `TcpClient.forward_to_http`
(src/client/tcp_client.py:88-107): Session-ID header, gzip header flag
and base64 body of the payload envelope (the target URL and the
Response-Port header are configuration constants). -/
structure ClientPost where
  sessionId : String
  gzipHeader : Bool
  body : List Nat
deriving DecidableEq

/-- Envelope POST built for one chunk by `TcpClient.forward_to_http`
(src/client/tcp_client.py:88-107); HTTP errors of the POST are caught
inside the function, so the caller's read loop continues either way. -/
def forward_to_http (gzipEnabled : Bool) (threshold : Nat)
    (gz : List Nat → List Nat) (sid : String) (data : List Nat) : ClientPost :=
  ⟨sid, (encode_payload gzipEnabled threshold gz data).2,
    (encode_payload gzipEnabled threshold gz data).1⟩

/-- Read loop of `TcpClient.handle_tcp_client`
(src/client/tcp_client.py:45-71): read until an empty read (peer EOF),
forwarding every non-empty chunk via `forward_to_http`.  Returns the
POSTs issued in order. -/
def handle_tcp_client (gzipEnabled : Bool) (threshold : Nat)
    (gz : List Nat → List Nat) (sid : String) :
    List (List Nat) → List ClientPost
  | [] => []
  | c :: rest =>
    if c = [] then []
    else forward_to_http gzipEnabled threshold gz sid c ::
      handle_tcp_client gzipEnabled threshold gz sid rest

/-- `TcpToHttp.handle_new_client` (src/client/main.py:14-25): awaits
`initialize_session` — whose PUT failures are all caught internally —
and then unconditionally enters the TCP read loop for the session. -/
def handle_new_client (gzipEnabled : Bool) (threshold : Nat)
    (gz : List Nat → List Nat) (sid : String) (putOutcome : PutOutcome)
    (chunks : List (List Nat)) : List ClientPost :=
  let _ := init_session putOutcome
  handle_tcp_client gzipEnabled threshold gz sid chunks

/-- Claim C5 (counterexample): after a failed session PUT the ingress
still forwards the data read from the accepted socket — the POST list
of the session is not empty. -/
theorem put_failure_counterexample :
    handle_new_client false 1024 (fun l => l) "50000" PutOutcome.httpError
        [[104, 105]] ≠ [] := by
  decide

theorem handle_tcp_client_get (gzipEnabled : Bool) (threshold : Nat)
    (gz : List Nat → List Nat) (sid : String) :
    ∀ (chunks : List (List Nat)) (j : Nat) (c : List Nat),
      chunks.get? j = some c →
      (∀ k, k ≤ j → chunks.get? k ≠ some []) →
      (handle_tcp_client gzipEnabled threshold gz sid chunks).get? j
        = some (forward_to_http gzipEnabled threshold gz sid c) := by
  intro chunks
  induction chunks with
  | nil =>
    intro j c hj
    simp at hj
  | cons c0 rest ih =>
    intro j c hj hne
    have hc0 : ¬ c0 = [] := by
      have h0 := hne 0 (Nat.zero_le j)
      simp only [List.get?] at h0
      intro hx
      exact h0 (by rw [hx])
    cases j with
    | zero =>
      have hc : c = c0 := by
        simp only [List.get?] at hj
        exact (Option.some.injEq _ _ ▸ hj).symm
      subst hc
      unfold handle_tcp_client
      rw [if_neg hc0]
      simp [List.get?]
    | succ j' =>
      unfold handle_tcp_client
      rw [if_neg hc0]
      simp only [List.get?]
      exact ih j' c (by simpa using hj)
        (fun k hk => by simpa using hne (k + 1) (by omega))

/-- Claim C5 (amended): failure of the session PUT is not fatal — the
ingress behaves identically for every PUT outcome, entering the read
loop and forwarding every non-empty chunk it reads to the egress relay;
the socket is closed only when the read loop exits. -/
theorem put_failure_ignored (gzipEnabled : Bool) (threshold : Nat)
    (gz : List Nat → List Nat) (sid : String) (o : PutOutcome)
    (chunks : List (List Nat)) (j : Nat) (c : List Nat)
    (hj : chunks.get? j = some c)
    (hne : ∀ k, k ≤ j → chunks.get? k ≠ some []) :
    handle_new_client gzipEnabled threshold gz sid o chunks =
      handle_new_client gzipEnabled threshold gz sid PutOutcome.success chunks ∧
    (handle_new_client gzipEnabled threshold gz sid o chunks).get? j
      = some (forward_to_http gzipEnabled threshold gz sid c) :=
  ⟨rfl, handle_tcp_client_get gzipEnabled threshold gz sid chunks j c hj hne⟩

/-- Witness for `put_failure_ignored`: a failed PUT followed by one
two-byte chunk, which is forwarded. -/
theorem put_failure_ignored_witness :
    (handle_new_client false 1024 (fun l => l) "50000" PutOutcome.httpError
        [[104, 105]]).get? 0
      = some (forward_to_http false 1024 (fun l => l) "50000" [104, 105]) :=
  (put_failure_ignored false 1024 (fun l => l) "50000" PutOutcome.httpError
    [[104, 105]] 0 [104, 105] (by decide) (by decide)).2

/-- Session teardown events: closing a session socket, deleting the id
from the connection/writer registry, deleting its callback entry. -/
inductive TeardownEvent
  | closeSocket (sid : String)
  | removeConn (sid : String)
  | removeEndpoint (sid : String)
deriving DecidableEq

/-- Event order of `HttpRequestHandler.do_DELETE`
(src/server/request_handler.py:118-149): when the session has a target
connection, `.close()` is called on it first and the `del` from
`tcp_connections` runs afterwards in the finally block; then the
callback entry is removed if present. -/
def do_DELETE_events (st : EgressState) (sid : String) : List TeardownEvent :=
  (if amem st.tcp_connections sid then
    [TeardownEvent.closeSocket sid, TeardownEvent.removeConn sid]
  else []) ++
  (if amem st.response_endpoints sid then [TeardownEvent.removeEndpoint sid]
  else [])

/-- Event order of `TcpServer.close_session_components`
(src/server/tcp_server.py:147-181): the entry is popped from
`tcp_connections` first, the writer is closed afterwards, then the
callback entry is removed. -/
def close_session_components_events (st : EgressState) (sid : String) :
    List TeardownEvent :=
  (if amem st.tcp_connections sid then
    [TeardownEvent.removeConn sid, TeardownEvent.closeSocket sid]
  else []) ++
  (if amem st.response_endpoints sid then [TeardownEvent.removeEndpoint sid]
  else [])

/-- Event order of the ingress read-loop exit, the finally block of
`TcpClient.handle_tcp_client` (src/client/tcp_client.py:72-86): the
writer is deleted from `active_client_writers` when still registered,
then closed unless it is already closing. -/
def ingress_readloop_exit_events (sid : String) (registered closing : Bool) :
    List TeardownEvent :=
  (if registered then [TeardownEvent.removeConn sid] else []) ++
  (if closing then [] else [TeardownEvent.closeSocket sid])

/-- Event order of the pump's own exit path, the finally block of
`TcpServer.handle_tcp_responses` (src/server/tcp_server.py:114-145):
the target writer is closed first (unless already closing) and only
then does `close_session_components` unlink the session. -/
def pump_exit_events (st : EgressState) (sid : String) (closing : Bool) :
    List TeardownEvent :=
  (if closing then [] else [TeardownEvent.closeSocket sid]) ++
  close_session_components_events st sid

/-- Removal-before-close discipline for a teardown trace: every close
of the session's socket is preceded by the removal of the session id
from the connection registry. -/
def removalBeforeClose (t : List TeardownEvent) (sid : String) : Prop :=
  ∀ i : Fin t.length, t.get i = TeardownEvent.closeSocket sid →
    ∃ j : Fin t.length, j.val < i.val ∧ t.get j = TeardownEvent.removeConn sid

instance removalBeforeClose.decide (t : List TeardownEvent) (sid : String) :
    Decidable (removalBeforeClose t sid) := by
  unfold removalBeforeClose
  infer_instance

/-- Claim C8 (counterexample): egress DELETE handling on a registered
session closes the target socket before deleting it from the registry,
so removal-before-close fails on that teardown. -/
theorem delete_close_order_counterexample :
    ¬ removalBeforeClose
        (do_DELETE_events ⟨[("s", 1)], [("s", ⟨"1.2.3.4", "9001"⟩)]⟩ "s")
        "s" := by
  decide

theorem rbc_cons_removeConn (s : String) (tail : List TeardownEvent) :
    removalBeforeClose (TeardownEvent.removeConn s :: tail) s := by
  intro i hi
  have hpos : 0 < i.val := by
    rcases i with ⟨iv, hiv⟩
    cases iv with
    | zero => simp [List.get] at hi
    | succ n => exact Nat.succ_pos n
  exact ⟨⟨0, by simp⟩, hpos, rfl⟩

theorem rbc_no_close (s : String) (t : List TeardownEvent)
    (h : ∀ e ∈ t, e ≠ TeardownEvent.closeSocket s) :
    removalBeforeClose t s := by
  intro i hi
  exact absurd hi (h _ (List.get_mem t i.1 i.2))

theorem not_rbc_cons_close (s : String) (tail : List TeardownEvent) :
    ¬ removalBeforeClose (TeardownEvent.closeSocket s :: tail) s := by
  intro h
  obtain ⟨j, hj, _⟩ := h ⟨0, by simp⟩ rfl
  simp at hj

/-- Claim C8 (amended): `close_session_components` (the pump teardown
helper) and the ingress read-loop exit both unlink the session from the
registry before any socket close; but egress DELETE handling closes the
target socket before deleting the registry entry, and the pump's own
exit path closes its writer before calling close_session_components, so
on those two teardowns a socket is closed while the session id is still
registered. -/
theorem removal_before_close_amended (st : EgressState) (sid : String) :
    removalBeforeClose (close_session_components_events st sid) sid ∧
    (∀ closing : Bool,
      removalBeforeClose (ingress_readloop_exit_events sid true closing) sid) ∧
    (amem st.tcp_connections sid = true →
      ¬ removalBeforeClose (do_DELETE_events st sid) sid) ∧
    (amem st.tcp_connections sid = true →
      ¬ removalBeforeClose (pump_exit_events st sid false) sid) := by
  refine ⟨?_, ?_, ?_, ?_⟩
  · cases h1 : amem st.tcp_connections sid with
    | false =>
      cases h2 : amem st.response_endpoints sid with
      | false =>
        have ht : close_session_components_events st sid = [] := by
          simp [close_session_components_events, h1, h2]
        rw [ht]
        exact rbc_no_close sid [] (by simp)
      | true =>
        have ht : close_session_components_events st sid
            = [TeardownEvent.removeEndpoint sid] := by
          simp [close_session_components_events, h1, h2]
        rw [ht]
        refine rbc_no_close sid _ ?_
        intro e he
        simp at he
        subst he
        simp
    | true =>
      cases h2 : amem st.response_endpoints sid with
      | false =>
        have ht : close_session_components_events st sid
            = [TeardownEvent.removeConn sid, TeardownEvent.closeSocket sid] := by
          simp [close_session_components_events, h1, h2]
        rw [ht]
        exact rbc_cons_removeConn sid _
      | true =>
        have ht : close_session_components_events st sid
            = [TeardownEvent.removeConn sid, TeardownEvent.closeSocket sid,
               TeardownEvent.removeEndpoint sid] := by
          simp [close_session_components_events, h1, h2]
        rw [ht]
        exact rbc_cons_removeConn sid _
  · intro closing
    cases closing with
    | false =>
      have ht : ingress_readloop_exit_events sid true false
          = [TeardownEvent.removeConn sid, TeardownEvent.closeSocket sid] := by
        simp [ingress_readloop_exit_events]
      rw [ht]
      exact rbc_cons_removeConn sid _
    | true =>
      have ht : ingress_readloop_exit_events sid true true
          = [TeardownEvent.removeConn sid] := by
        simp [ingress_readloop_exit_events]
      rw [ht]
      exact rbc_cons_removeConn sid _
  · intro h1
    cases h2 : amem st.response_endpoints sid with
    | false =>
      have ht : do_DELETE_events st sid
          = [TeardownEvent.closeSocket sid, TeardownEvent.removeConn sid] := by
        simp [do_DELETE_events, h1, h2]
      rw [ht]
      exact not_rbc_cons_close sid _
    | true =>
      have ht : do_DELETE_events st sid
          = [TeardownEvent.closeSocket sid, TeardownEvent.removeConn sid,
             TeardownEvent.removeEndpoint sid] := by
        simp [do_DELETE_events, h1, h2]
      rw [ht]
      exact not_rbc_cons_close sid _
  · intro h1
    cases h2 : amem st.response_endpoints sid with
    | false =>
      have ht : pump_exit_events st sid false
          = [TeardownEvent.closeSocket sid, TeardownEvent.removeConn sid,
             TeardownEvent.closeSocket sid] := by
        simp [pump_exit_events, close_session_components_events, h1, h2]
      rw [ht]
      exact not_rbc_cons_close sid _
    | true =>
      have ht : pump_exit_events st sid false
          = [TeardownEvent.closeSocket sid, TeardownEvent.removeConn sid,
             TeardownEvent.closeSocket sid, TeardownEvent.removeEndpoint sid] := by
        simp [pump_exit_events, close_session_components_events, h1, h2]
      rw [ht]
      exact not_rbc_cons_close sid _

/-- Witness for `removal_before_close_amended` on a registered session. -/
theorem removal_before_close_amended_witness :
    removalBeforeClose
      (close_session_components_events
        ⟨[("s", 1)], [("s", ⟨"1.1.1.1", "9001"⟩)]⟩ "s") "s" ∧
    ¬ removalBeforeClose
      (pump_exit_events ⟨[("s", 1)], [("s", ⟨"1.1.1.1", "9001"⟩)]⟩ "s" false)
      "s" :=
  ⟨(removal_before_close_amended
      ⟨[("s", 1)], [("s", ⟨"1.1.1.1", "9001"⟩)]⟩ "s").1,
    (removal_before_close_amended
      ⟨[("s", 1)], [("s", ⟨"1.1.1.1", "9001"⟩)]⟩ "s").2.2.2 (by decide)⟩
